import Mathlib

/-
Verification of the natural-language specification of
`pefty_llama/modeling_peft.py` (a LLaMA-family decoder with PEFT variants)
against a shallow embedding of the source in Lean 4.

Embedding conventions:
* Tensors are nested lists; the trailing `head_dim` axis of KV-cache tensors
  is folded into an abstract entry type `α`, since the source never inspects
  it in the cache-manipulation code (it only slices along batch/head/seq).
* Token ids are `ℤ` (torch long); logits and soft-mask values are `ℚ`
  (exact stand-in for float arithmetic that the control flow compares).
* The numeric kernel of the network (projections, softmax attention,
  RMSNorm) is float/transcendental code; per the spec it is an opaque
  "linear-layer provider".  `generate` is therefore embedded parametrically
  in the composed `lm_head ∘ LLaMAInnerModel.forward` call — an oracle that
  receives exactly the arguments the source passes (input ids, attention
  mask, rotary position ids standing for `get_cos_sin` of those ids, and the
  KV cache) and returns logits and the new cache.  Everything the generation
  loop itself computes (masks, rope ids, valid-token counters, the cache
  shift, argmax token selection, concatenation of outputs) is embedded
  directly from the source.
* `silu` is a transcendental activation; the MLP is embedded parametrically
  in it, and the one claim that needs its numeric value instantiates it over
  `ℝ` with the exact definition silu(x) = x / (1 + exp (-x)).
-/

namespace PeftyLlama

/-- PEFT mode tags, from `pefty_llama.peft` constants
(`PEFT_PREFIX`, `PEFT_PROMPT`, `PEFT_LORA`, `PEFT_ADAPTER`, `PEFT_BITFIT`,
`PEFT_IA3`, `PEFT_PREFIX_ADAPTER`, plus the no-op mode).  Exactly one mode is
active per model instance.  (The `peft` module is not under src/; only the tag
set, which `modeling_peft.py` branches on, is needed here.) -/
inductive PeftMode where
  | nothing
  | pfx
  | prompt
  | lora
  | adapter
  | bitfit
  | ia3
  | pfxAdapter
deriving DecidableEq, Repr

/-- PEFT configuration: the discriminating mode tag plus the number of virtual
prefix tokens (the only hyperparameter `modeling_peft.py` itself reads). -/
structure PeftConfig where
  peft_mode : PeftMode
  num_prefix_tokens : ℕ
deriving DecidableEq, Repr

/-- One layer's KV-cache entry: `key` and `value`, each
batch × heads × cached-seq, with the `head_dim` axis folded into `α`.
From `init_kv_cache`'s docstring: `key = [batch_size, num_heads, kv_seq_len,
head_dim]`. -/
structure LayerKV (α : Type) where
  key : List (List (List α))
  value : List (List (List α))
deriving DecidableEq, Repr

/-- `cached_length` of a cache entry: `kv_cache[0]["key"].shape[2]`, read off
the first batch row's first head (all rows/heads share it for well-formed
caches). -/
def cachedLengthKV {α : Type} (e : LayerKV α) : ℕ :=
  ((e.key.getD 0 []).getD 0 []).length

/-- `LLaMAModel.init_kv_cache` (modeling_peft.py lines 113-136): one
zero-length entry per layer, `key`/`value` of shape
[batch_size, num_heads, 0, head_dim]. -/
def init_kv_cache (α : Type) (batch_size num_heads n_layers : ℕ) :
    List (LayerKV α) :=
  (List.range n_layers).map (fun _ =>
    ⟨List.replicate batch_size (List.replicate num_heads ([] : List α)),
     List.replicate batch_size (List.replicate num_heads ([] : List α))⟩)

/-- `rotate_half` (modeling_peft.py lines 614-618):
`x1 = x[..., : x.shape[-1] // 2]; x2 = x[..., x.shape[-1] // 2 :];
return torch.cat((-x2, x1), dim=-1)`, on the last axis of a tensor,
embedded on one last-axis fiber. -/
def rotate_half {α : Type} [Ring α] (x : List α) : List α :=
  let x1 := x.take (x.length / 2)
  let x2 := x.drop (x.length / 2)
  (x2.map (fun a => -a)) ++ x1

/-- `apply_rotary_pos_emb` (modeling_peft.py lines 621-624):
`q_embed = (q * cos) + (rotate_half q * sin)` and the same for `k`,
elementwise on one last-axis fiber. -/
def apply_rotary_pos_emb {α : Type} [Ring α] (q k cos sin : List α) :
    List α × List α :=
  (List.zipWith (· + ·) (List.zipWith (· * ·) q cos)
      (List.zipWith (· * ·) (rotate_half q) sin),
   List.zipWith (· + ·) (List.zipWith (· * ·) k cos)
      (List.zipWith (· * ·) (rotate_half k) sin))

/-- Running sums with accumulator, for `torch.cumsum(-1)` on one row. -/
def cumsumAux (acc : ℤ) : List ℤ → List ℤ
  | [] => []
  | x :: xs => (acc + x) :: cumsumAux (acc + x) xs

/-- `Tensor.cumsum(-1)` on one row. -/
def cumsum (l : List ℤ) : List ℤ := cumsumAux 0 l

/-- `create_rope_embed_ids` (modeling_peft.py lines 779-784), one batch row:
`pad_token_id = 0; max_position = 2047;
x = (input_ids != pad_token_id).cumsum(-1) - 1; x[input_ids == pad_token_id] =
max_position`. -/
def create_rope_embed_ids (input_ids : List ℤ) : List ℤ :=
  let indicator := input_ids.map (fun t => if t ≠ 0 then (1 : ℤ) else 0)
  let x := (cumsum indicator).map (fun c => c - 1)
  List.zipWith (fun t xi => if t = 0 then (2047 : ℤ) else xi) input_ids x

/-- `RotaryEmbedding.__init__` (modeling_peft.py lines 582-595) precomputes
`cos_cached`/`sin_cached` for `max_position_embeddings = 2048` absolute
positions, i.e. rows indexed 0 .. 2047. -/
def rotary_table_size : ℕ := 2048

/-- `shift_kv_cache_right` (modeling_peft.py lines 737-751): per batch row `i`,
`torch.cat([layer_cache[i, :, num_valid_tokens[i]:, :],
layer_cache[i, :, :num_valid_tokens[i], :]], dim=1)`, stacked back over the
batch — each row's sequence axis is rotated by that row's own count, heads
untouched.  Python slicing clamps an over-long index exactly like
`List.drop`/`List.take`. -/
def shift_kv_cache_right {α : Type} (layer_cache : List (List (List α)))
    (num_valid_tokens : List ℕ) : List (List (List α)) :=
  List.zipWith
    (fun row v => row.map (fun s => s.drop v ++ s.take v))
    layer_cache num_valid_tokens

/-- The cache-merge step of `Attention.forward` (modeling_peft.py lines
552-554 and 576): when a cache entry is present,
`key_states = torch.cat([kv_cache["key"], key_states], dim=2)` (same for
value) and the returned entry is `{"key": key_states, "value": value_states}`
— per batch row and head, the new per-head keys/values are appended at the
end of the sequence axis. -/
def attention_update_cache {α : Type} (cache : LayerKV α)
    (new_key new_value : List (List (List α))) : LayerKV α :=
  ⟨List.zipWith (fun oldRow newRow => List.zipWith (· ++ ·) oldRow newRow)
      cache.key new_key,
   List.zipWith (fun oldRow newRow => List.zipWith (· ++ ·) oldRow newRow)
      cache.value new_value⟩

/-- The soft-prompt guard of `LLaMAInnerModel.forward` (modeling_peft.py lines
306-310): the learned prompt is prepended to the token embeddings iff the
mode is prompt tuning and `kv_cache is None or kv_cache[0]["key"].shape[2] ==
0`. -/
def prompt_prepended {α : Type} (peft_mode : PeftMode)
    (kv_cache : Option (List (LayerKV α))) : Bool :=
  decide (peft_mode = PeftMode.prompt) &&
    (kv_cache.isNone ||
      decide (cachedLengthKV ((kv_cache.getD []).getD 0 ⟨[], []⟩) = 0))

/-- The prompt-injection stage of `LLaMAInnerModel.forward` (lines 306-310):
`hidden_states = self.embed_tokens(input_ids)` followed, under the guard, by
`hidden_states = self.peft_prompt(hidden_states)`.
`peft.AddSoftPrompt` is not under src/; modelled from the spec:
"prepends learned virtual embedding vectors to the token-embedding
sequence". -/
def inner_forward_prompt_stage {α : Type} (peft_mode : PeftMode)
    (soft_prompt : List (List α)) (hidden_states : List (List (List α)))
    (kv_cache : Option (List (LayerKV α))) : List (List (List α)) :=
  if prompt_prepended peft_mode kv_cache then
    hidden_states.map (fun row => soft_prompt ++ row)
  else hidden_states

/-- `MLP.__init__`'s hidden-width computation (modeling_peft.py lines
436-439): `hidden_dim = 4 * dim; hidden_dim = int(2 * hidden_dim / 3);
hidden_dim = multiple_of * ((hidden_dim + multiple_of - 1) // multiple_of)`
with `multiple_of = 256`.  Python `int(...)` on a nonnegative true division
is floor division. -/
def mlp_hidden_dim (dim : ℕ) : ℕ :=
  256 * ((2 * (4 * dim) / 3 + 256 - 1) / 256)

/-- The `MLP` module (modeling_peft.py lines 426-455): the three projection
sub-modules (the spec's opaque "linear-layer provider"s, embedded as abstract
maps) together with the PEFT parameters declared in `__init__` — the three
BitFit bias vectors (`peft.BitFitAddBias` is not under src/; modelled from the
spec: "adds a trainable per-channel bias") and the IA3 scale vector
(`peft.IA3ForMLP`, modelled from the spec: "multiplies ... the MLP
gated-intermediate activation elementwise by a learned per-channel scale
vector"). -/
structure MLP (α : Type) (dim hidden : ℕ) where
  peft_mode : PeftMode
  gate_proj : (Fin dim → α) → Fin hidden → α
  up_proj : (Fin dim → α) → Fin hidden → α
  down_proj : (Fin hidden → α) → Fin dim → α
  peft_gate_proj_bias : Fin hidden → α
  peft_up_proj_bias : Fin hidden → α
  peft_down_proj_bias : Fin dim → α
  peft_ia3 : Fin hidden → α

/-- `MLP.forward` (modeling_peft.py lines 457-472), parametric in the
transcendental activation `silu`:
`gate_proj = self.gate_proj(x); up_proj = self.up_proj(x);`
BitFit: `gate_proj = self.peft_gate_proj_bias(gate_proj); up_proj =
self.peft_gate_proj_bias(up_proj)` (the source applies the gate bias to both;
`peft_up_proj_bias` is never read);
`intermediate_state = F.silu(gate_proj * up_proj)` (the source applies silu
to the elementwise product); IA3 rescales the intermediate; `down_proj =
self.down_proj(intermediate_state)` plus the BitFit down bias. -/
def MLP.forward {α : Type} [Ring α] {dim hidden : ℕ} (silu : α → α)
    (self : MLP α dim hidden) (x : Fin dim → α) : Fin dim → α :=
  let gate_proj := self.gate_proj x
  let up_proj := self.up_proj x
  let gate_proj := if self.peft_mode = PeftMode.bitfit then
      fun i => gate_proj i + self.peft_gate_proj_bias i
    else gate_proj
  let up_proj := if self.peft_mode = PeftMode.bitfit then
      fun i => up_proj i + self.peft_gate_proj_bias i
    else up_proj
  let intermediate_state := fun i => silu (gate_proj i * up_proj i)
  let intermediate_state := if self.peft_mode = PeftMode.ia3 then
      fun i => intermediate_state i * self.peft_ia3 i
    else intermediate_state
  let down_proj := self.down_proj intermediate_state
  let down_proj := if self.peft_mode = PeftMode.bitfit then
      fun i => down_proj i + self.peft_down_proj_bias i
    else down_proj
  down_proj

/-- From the spec's words, for comparison with `MLP.forward`:
"Standard SwiGLU: `down( silu(gate(x)) * up(x) )`" — the SiLU nonlinearity is
applied to the gate projection's output alone and the result is multiplied
elementwise by the up projection's output before the down projection
(stated for the base, no-PEFT path). -/
def MLP.forward_spec {α : Type} [Ring α] {dim hidden : ℕ} (silu : α → α)
    (self : MLP α dim hidden) (x : Fin dim → α) : Fin dim → α :=
  self.down_proj (fun i => silu (self.gate_proj x i) * self.up_proj x i)

/-- `convert_mask_to_soft_mask` (modeling_peft.py lines 663-670):
`mask = (1.0 - mask) * torch.finfo(dtype).min`, with the dtype's minimum
passed in as `dtypeMin`. -/
def convert_mask_to_soft_mask (mask : List (List (List (List Bool))))
    (dtypeMin : ℚ) : List (List (List (List ℚ))) :=
  mask.map (fun a => a.map (fun b => b.map (fun row =>
    row.map (fun m => (1 - if m then (1 : ℚ) else 0) * dtypeMin))))

/-- The boolean causal mask of `create_attention_mask` (modeling_peft.py
lines 627-660): `causal_mask[q, k] = (k <= q)`, shaped
[batch=1, heads=1, seq, seq]. -/
def create_attention_mask_bool (input_ids : List (List ℤ)) :
    List (List (List (List Bool))) :=
  let seq_length := (input_ids.headD []).length
  [[(List.range seq_length).map (fun q =>
      (List.range seq_length).map (fun k => decide (k ≤ q)))]]

/-- `create_attention_mask` with the default `return_soft_mask=True`. -/
def create_attention_mask (input_ids : List (List ℤ)) (dtypeMin : ℚ) :
    List (List (List (List ℚ))) :=
  convert_mask_to_soft_mask (create_attention_mask_bool input_ids) dtypeMin

/-- `create_generation_attention_mask` (modeling_peft.py lines 754-770):
a zero (False) [batch, 1, 1, seq_len] mask whose last `num_valid_tokens[i]`
key columns are set True per row via `attn_mask[i, 0, 0, -valid:] = True`.
Python's negative slice makes `valid = 0` mark the whole row (`[-0:]` is
`[0:]`), and a `valid > seq_len` also marks the whole row — both coincide
with the `seq_len - valid ≤ j` test except at `valid = 0`, which is embedded
explicitly. -/
def create_generation_attention_mask (batch_size seq_len : ℕ)
    (num_valid_tokens : List ℕ) : List (List (List (List Bool))) :=
  (List.range batch_size).map (fun i =>
    let valid := num_valid_tokens.getD i 0
    [[(List.range seq_len).map (fun j =>
        if valid = 0 then true else decide (seq_len - valid ≤ j))]])

/-- The prefix-mode mask widening of `LLaMAModel.generate` (lines 184-187):
`torch.cat([zeros_like([1, 1, seq, num_prefix_tokens], mask), mask], dim=3)`
— `num_prefix_tokens` always-attend (soft value 0) key columns are prepended
on the last axis. -/
def prepend_zero_cols (mask : List (List (List (List ℚ))))
    (num_prefix_tokens : ℕ) : List (List (List (List ℚ))) :=
  mask.map (fun a => a.map (fun b => b.map (fun row =>
    List.replicate num_prefix_tokens (0 : ℚ) ++ row)))

/-- `torch.argmax` over one logits row: index of the first maximal value. -/
def argmaxIdx (l : List ℚ) : ℕ :=
  (List.range l.length).foldl
    (fun best j => if l.getD best 0 < l.getD j 0 then j else best) 0

/-- Python/torch integer indexing on one axis: a negative index counts from
the end. -/
def pyIndexD {β : Type} (l : List β) (i : ℤ) (d : β) : β :=
  if i < 0 then l.getD (l.length - (-i).toNat) d else l.getD i.toNat d

/-- The decode-step rotary ids of `LLaMAModel.generate` (line 240):
`create_rope_embed_ids(input_ids) + num_valid_tokens`, where `input_ids` is
the [batch, 1] tensor of just-generated tokens and `num_valid_tokens` the
[batch] counter tensor.  Under torch broadcasting the [batch, 1] + [batch]
sum has shape [batch, batch]: entry (i, j) is row i's rope id plus row j's
counter. -/
def decode_rope_embed_ids (input_ids : List (List ℤ))
    (num_valid_tokens : List ℕ) : List (List ℤ) :=
  (input_ids.map create_rope_embed_ids).map (fun row =>
    num_valid_tokens.map (fun v => row.headD 0 + (v : ℤ)))

/-- The post-prime cache-shift block of `LLaMAModel.generate` (lines
214-220): `for layer_kv_cache in kv_cache: for i in range(batch_size):
layer_kv_cache["key"] = shift_kv_cache_right(layer_kv_cache["key"],
num_valid_kv_cache)` (and the same for "value") — the inner loop reassigns
the whole tensor each iteration, so each layer's key and value are shifted
`batch_size` times. -/
def generate_shift_block {α : Type} (kv_cache : List (LayerKV α))
    (batch_size : ℕ) (num_valid_kv_cache : List ℕ) : List (LayerKV α) :=
  kv_cache.map (fun layer =>
    ⟨(fun t => shift_kv_cache_right t num_valid_kv_cache)^[batch_size] layer.key,
     (fun t => shift_kv_cache_right t num_valid_kv_cache)^[batch_size] layer.value⟩)

/-- `torch.cat(generated_token_ids_list, dim=1)` (line 255): per batch row,
the row chunks are concatenated left to right. -/
def cat_dim1 (chunks : List (List (List ℤ))) (batch_size : ℕ) :
    List (List ℤ) :=
  (List.range batch_size).map (fun i =>
    (chunks.map (fun c => c.getD i [])).flatten)

/-- The type of the abstracted `lm_head ∘ LLaMAInnerModel.forward` call made
by `generate`: input ids, soft attention mask, rotary position ids (standing
for `get_cos_sin` of them), and KV cache in; logits
[batch, seq, vocab] and the new KV cache out. -/
abbrev GenOracle (α : Type) : Type :=
  List (List ℤ) → List (List (List (List ℚ))) → List (List ℤ) →
    List (LayerKV α) → List (List (List ℚ)) × List (LayerKV α)

/-- The loop state of `LLaMAModel.generate`'s decode loop (lines 223-254). -/
structure GenLoopState (α : Type) where
  num_valid_tokens : List ℕ
  total_seq_len : ℕ
  input_ids : List (List ℤ)
  kv_cache : List (LayerKV α)
  generated : List (List (List ℤ))

/-- One iteration of `LLaMAModel.generate`'s decode loop (lines 223-254):
increment the counters and total length, build the generation mask and
decode-step rope ids, run the model, take `logits.argmax(-1)[:, -1:]` as the
next tokens, append them to the output list. -/
def generate_decode_step {α : Type} (oracle : GenOracle α) (dtypeMin : ℚ)
    (batch_size : ℕ) (st : GenLoopState α) : GenLoopState α :=
  let nv := st.num_valid_tokens.map (fun v => v + 1)
  let total := st.total_seq_len + 1
  let mask := convert_mask_to_soft_mask
    (create_generation_attention_mask batch_size total nv) dtypeMin
  let rope := decode_rope_embed_ids st.input_ids nv
  let out := oracle st.input_ids mask rope st.kv_cache
  let gen := out.1.map (fun row_logits =>
    [(argmaxIdx (row_logits.getLastD []) : ℤ)])
  ⟨nv, total, gen, out.2, st.generated ++ [gen]⟩

/-- The setup and prime pass of `LLaMAModel.generate` (modeling_peft.py lines
148-220), parametric in the abstracted model call (`oracle`), the config's
pad token id, the dtype minimum used for soft masks, and — for prefix mode —
the `peft.SoftPrefixes` cache builder (not under src/; modelled from the
spec: "produces learned virtual K/V pairs of fixed length" per layer),
supplied as `soft_prefixes`.  Mirroring the source: count valid (non-pad)
tokens per row, initialize the cache (virtual prefixes in prefix mode,
zero-length otherwise), run the prime pass over the prompt with a causal
mask (widened by the structural prefix in prefix/prompt mode, rebuilt over
the lengthened sequence in prompt mode), pick each row's argmax logit at its
last valid position (lines 207-212), and shift the cache right (lines
214-220). -/
def generate_prime {α : Type} (oracle : GenOracle α) (peft_config : PeftConfig)
    (pad_token_id : ℤ) (dtypeMin : ℚ) (soft_prefixes : ℕ → List (LayerKV α))
    (n_layers n_heads : ℕ) (input_ids : List (List ℤ)) : GenLoopState α :=
  let original_input_ids := input_ids
  let batch_size := input_ids.length
  let seq_len := (input_ids.headD []).length
  let num_valid_tokens :=
    input_ids.map (fun row => row.countP (fun t => decide (t ≠ pad_token_id)))
  let kv_cache :=
    if peft_config.peft_mode = PeftMode.pfx then soft_prefixes batch_size
    else init_kv_cache α batch_size n_heads n_layers
  let num_valid_kv_cache :=
    if peft_config.peft_mode = PeftMode.pfx then
      num_valid_tokens.map (fun v => v + peft_config.num_prefix_tokens)
    else num_valid_tokens
  let total_seq_len := seq_len
  let attention_mask := create_attention_mask input_ids dtypeMin
  let total_seq_len :=
    if peft_config.peft_mode = PeftMode.pfx ∨ peft_config.peft_mode = PeftMode.prompt
    then total_seq_len + peft_config.num_prefix_tokens else total_seq_len
  let attention_mask :=
    if peft_config.peft_mode = PeftMode.pfx ∨ peft_config.peft_mode = PeftMode.prompt
    then prepend_zero_cols attention_mask peft_config.num_prefix_tokens
    else attention_mask
  let input_ids_for_rope :=
    if peft_config.peft_mode = PeftMode.prompt then
      input_ids.map (fun row =>
        List.replicate peft_config.num_prefix_tokens (1 : ℤ) ++ row)
    else input_ids
  let attention_mask :=
    if peft_config.peft_mode = PeftMode.prompt then
      create_attention_mask input_ids_for_rope dtypeMin
    else attention_mask
  let rope_embed_ids := input_ids_for_rope.map create_rope_embed_ids
  let out := oracle input_ids attention_mask rope_embed_ids kv_cache
  let generated_token_ids := (List.range batch_size).map (fun i =>
    [(argmaxIdx (pyIndexD (out.1.getD i [])
        ((num_valid_tokens.getD i 0 : ℤ) - 1) []) : ℤ)])
  let kv_cache := generate_shift_block out.2 batch_size num_valid_kv_cache
  ⟨num_valid_tokens, total_seq_len, generated_token_ids, kv_cache,
   [original_input_ids, generated_token_ids]⟩

/-- `LLaMAModel.generate` (lines 138-255): the prime pass (`generate_prime`,
lines 148-220), then `generation_length - 1` decode-loop iterations
(`generate_decode_step`, lines 223-254), then
`torch.cat(generated_token_ids_list, dim=1)` (line 255). -/
def generate {α : Type} (oracle : GenOracle α) (peft_config : PeftConfig)
    (pad_token_id : ℤ) (dtypeMin : ℚ) (soft_prefixes : ℕ → List (LayerKV α))
    (n_layers n_heads : ℕ) (input_ids : List (List ℤ))
    (generation_length : ℕ) : List (List ℤ) :=
  let st := generate_prime oracle peft_config pad_token_id dtypeMin
    soft_prefixes n_layers n_heads input_ids
  let final := (List.range (generation_length - 1)).foldl
    (fun s _ => generate_decode_step oracle dtypeMin input_ids.length s) st
  cat_dim1 final.generated input_ids.length

/-- From the spec's words, for comparison with `rotate_half`:
"`rotate_half(x)` negates and swaps the two halves of the last dimension:
`rotate_half(x) = concat(-x[D/2:], x[:D/2])` ... split the last dimension in
half, negate the second half, and swap the two halves before concatenation",
with the half width `m = D/2` made explicit. -/
def rotate_half_spec {α : Type} [Ring α] (m : ℕ) (x : List α) : List α :=
  ((x.drop m).map (fun a => -a)) ++ x.take m

/-- The exact SiLU activation over ℝ (`F.silu`):
silu(x) = x·sigmoid(x) = x / (1 + exp (-x)). -/
noncomputable def siluReal (x : ℝ) : ℝ := x / (1 + Real.exp (-x))

/-- A concrete no-PEFT `MLP` instance over ℝ at `dim = 1` and
`hidden = mlp_hidden_dim 1 = 256`: the gate projection writes `x 0` and the
up projection writes `2 * x 0` into channel 0 (all other channels 0), and
the down projection reads channel 0 back out; all PEFT parameters are 0. -/
def c1mlp : MLP ℝ 1 256 :=
  ⟨PeftMode.nothing,
   fun x i => if i = 0 then x 0 else 0,
   fun x i => if i = 0 then 2 * x 0 else 0,
   fun v _ => v 0,
   fun _ => 0, fun _ => 0, fun _ => 0, fun _ => 0⟩

/-- A concrete BitFit `MLP` instance over ℚ at `dim = hidden = 1`, with the
up-projection bias left as a parameter: identity gate/up/down projections,
gate bias 1, down bias 2, IA3 scale 3. -/
def c10mlp (up_bias : ℚ) : MLP ℚ 1 1 :=
  ⟨PeftMode.bitfit,
   fun x _ => x 0, fun x _ => x 0, fun v _ => v 0,
   fun _ => 1, fun _ => up_bias, fun _ => 2, fun _ => 3⟩

/-- A model oracle whose logits echo the input's batch/seq shape with two
vocabulary entries `[1, 0]` per position (argmax is always token 0) and pass
the cache through unchanged — used to run `generate` on concrete inputs. -/
def echoOracle : GenOracle ℤ := fun inp _ _ cache =>
  (inp.map (fun row => row.map (fun _ => [(1 : ℚ), 0])), cache)

/-- A model oracle returning a fixed one-row, one-position, two-vocabulary
logits tensor regardless of input, the cache passed through. -/
def constOracle1 : GenOracle ℤ := fun _ _ _ cache => ([[[(1 : ℚ), 0]]], cache)

/-- The no-PEFT configuration. -/
def cfgNone : PeftConfig := ⟨PeftMode.nothing, 0⟩

/-- A concrete single-layer cache trace for one batch row and one head,
driven by `attention_update_cache` with one new token per step. -/
def c7cache : ℕ → LayerKV ℤ
  | 0 => ⟨[[[]]], [[[]]]⟩
  | n + 1 => attention_update_cache (c7cache n) [[[0]]] [[[0]]]

/-- An input row with 2048 non-pad tokens followed by one pad token. -/
def c9input : List ℤ := List.replicate 2048 1 ++ [0]

lemma getD_zipWith {β γ δ : Type} (f : β → γ → δ) (a : List β) (b : List γ)
    (i : ℕ) (d₁ : β) (d₂ : γ) (h : a.length = b.length) :
    (List.zipWith f a b).getD i (f d₁ d₂) = f (a.getD i d₁) (b.getD i d₂) := by
  induction a generalizing b i with
  | nil =>
    cases b with
    | nil => simp
    | cons y ys => simp at h
  | cons x xs ih =>
    cases b with
    | nil => simp at h
    | cons y ys =>
      cases i with
      | zero => simp
      | succ n =>
        simp only [List.zipWith_cons_cons, List.getD_cons_succ]
        exact ih ys n (by simpa using h)

lemma length_rotate_half {α : Type} [Ring α] (x : List α) :
    (rotate_half x).length = x.length := by
  simp only [rotate_half, List.length_append, List.length_map,
    List.length_drop, List.length_take]
  omega

/-- Claim C5: for every q, k, cos, sin of matching shape with even last
dimension D = 2m, `apply_rotary_pos_emb` returns
(q·cos + rotate_half(q)·sin, k·cos + rotate_half(k)·sin), where
rotate_half(x) = concat(-x[D/2:], x[:D/2]) — exactly: split the last
dimension in half, negate the second half, and swap the two halves before
concatenation (the index-level reading is stated as the last two
conjuncts). -/
theorem apply_rotary_pos_emb_spec {α : Type} [Ring α] (m : ℕ)
    (q k cos sin : List α) (hq : q.length = 2 * m) (hk : k.length = 2 * m) :
    apply_rotary_pos_emb q k cos sin =
      (List.zipWith (· + ·) (List.zipWith (· * ·) q cos)
        (List.zipWith (· * ·) (rotate_half_spec m q) sin),
       List.zipWith (· + ·) (List.zipWith (· * ·) k cos)
        (List.zipWith (· * ·) (rotate_half_spec m k) sin)) ∧
    rotate_half q = rotate_half_spec m q ∧
    rotate_half k = rotate_half_spec m k ∧
    (∀ i, i < m → (rotate_half q).getD i 0 = -(q.getD (m + i) 0)) ∧
    (∀ i, m ≤ i → i < 2 * m → (rotate_half q).getD i 0 = q.getD (i - m) 0) := by
  have key : ∀ (x : List α), x.length = 2 * m →
      rotate_half x = rotate_half_spec m x := by
    intro x hx
    have h2 : x.length / 2 = m := by omega
    simp only [rotate_half, rotate_half_spec, h2]
  have hlen1 : ((q.drop m).map (fun a => -a)).length = m := by
    simp only [List.length_map, List.length_drop, hq]
    omega
  refine ⟨?_, key q hq, key k hk, ?_, ?_⟩
  · simp only [apply_rotary_pos_emb, key q hq, key k hk]
  · intro i him
    have hL : i < (rotate_half_spec m q).length := by
      rw [← key q hq, length_rotate_half, hq]; omega
    have h2 : m + i < q.length := by omega
    rw [key q hq, List.getD_eq_getElem _ _ hL, List.getD_eq_getElem _ _ h2]
    simp only [rotate_half_spec]
    rw [List.getElem_append_left (by rw [hlen1]; exact him)]
    simp only [List.getElem_map, List.getElem_drop]
  · intro i him1 him2
    have hL : i < (rotate_half_spec m q).length := by
      rw [← key q hq, length_rotate_half, hq]; omega
    have h2 : i - m < q.length := by omega
    rw [key q hq, List.getD_eq_getElem _ _ hL, List.getD_eq_getElem _ _ h2]
    simp only [rotate_half_spec]
    rw [List.getElem_append_right (by rw [hlen1]; exact him1)]
    simp only [List.getElem_take, hlen1]

/-- Witness for C5 at m = 1, q = [1,2], k = [3,4], cos = [5,6],
sin = [7,8] over ℚ. -/
theorem apply_rotary_pos_emb_spec_witness :
    ([(1 : ℚ), 2].length = 2 * 1 ∧ [(3 : ℚ), 4].length = 2 * 1) ∧
    (apply_rotary_pos_emb [(1 : ℚ), 2] [3, 4] [5, 6] [7, 8] =
      (List.zipWith (· + ·) (List.zipWith (· * ·) [(1 : ℚ), 2] [5, 6])
        (List.zipWith (· * ·) (rotate_half_spec 1 [(1 : ℚ), 2]) [7, 8]),
       List.zipWith (· + ·) (List.zipWith (· * ·) [(3 : ℚ), 4] [5, 6])
        (List.zipWith (· * ·) (rotate_half_spec 1 [(3 : ℚ), 4]) [7, 8])) ∧
     rotate_half [(1 : ℚ), 2] = rotate_half_spec 1 [(1 : ℚ), 2] ∧
     rotate_half [(3 : ℚ), 4] = rotate_half_spec 1 [(3 : ℚ), 4] ∧
     (∀ i, i < 1 → (rotate_half [(1 : ℚ), 2]).getD i 0 =
        -([(1 : ℚ), 2].getD (1 + i) 0)) ∧
     (∀ i, 1 ≤ i → i < 2 * 1 → (rotate_half [(1 : ℚ), 2]).getD i 0 =
        [(1 : ℚ), 2].getD (i - 1) 0)) :=
  ⟨⟨by decide, by decide⟩,
   apply_rotary_pos_emb_spec 1 [(1 : ℚ), 2] [3, 4] [5, 6] [7, 8]
     (by decide) (by decide)⟩

lemma shift_kv_cache_right_getD {α : Type} (cache : List (List (List α)))
    (nv : List ℕ) (i : ℕ) (h : cache.length = nv.length) :
    (shift_kv_cache_right cache nv).getD i [] =
      (cache.getD i []).map
        (fun s => s.drop (nv.getD i 0) ++ s.take (nv.getD i 0)) := by
  have := getD_zipWith
    (fun (row : List (List α)) (v : ℕ) =>
      row.map (fun s => s.drop v ++ s.take v)) cache nv i [] 0 h
  simpa [shift_kv_cache_right] using this

/-- Claim C6: for every left-aligned cache tensor [batch, heads, seq]
(head_dim folded into the entries) and per-row valid-length vector with
v[i] ≤ seq, one application of `shift_kv_cache_right` preserves the batch
count and each row's head count, permutes each row-and-head's sequence axis,
and the last v[i] columns of row i of the result equal the first v[i]
columns of row i of the input. -/
theorem shift_kv_cache_right_is_aligning_perm {α : Type}
    (cache : List (List (List α))) (nv : List ℕ) (seq : ℕ)
    (hB : cache.length = nv.length)
    (hseq : ∀ i, i < cache.length → ∀ h, h < (cache.getD i []).length →
      ((cache.getD i []).getD h []).length = seq)
    (hv : ∀ i, i < cache.length → nv.getD i 0 ≤ seq) :
    (shift_kv_cache_right cache nv).length = cache.length ∧
    (∀ i, ((shift_kv_cache_right cache nv).getD i []).length =
      (cache.getD i []).length) ∧
    (∀ i h, (((shift_kv_cache_right cache nv).getD i []).getD h []).Perm
      ((cache.getD i []).getD h [])) ∧
    (∀ i, i < cache.length → ∀ h, h < (cache.getD i []).length →
      (((shift_kv_cache_right cache nv).getD i []).getD h []).drop
          (seq - nv.getD i 0) =
        ((cache.getD i []).getD h []).take (nv.getD i 0)) := by
  refine ⟨?_, ?_, ?_, ?_⟩
  · rw [shift_kv_cache_right, List.length_zipWith, hB, min_self]
  · intro i
    rw [shift_kv_cache_right_getD cache nv i hB, List.length_map]
  · intro i h
    rw [shift_kv_cache_right_getD cache nv i hB]
    by_cases hh : h < (cache.getD i []).length
    · have h1 : h < ((cache.getD i []).map
          (fun s => s.drop (nv.getD i 0) ++ s.take (nv.getD i 0))).length := by
        rw [List.length_map]; exact hh
      rw [List.getD_eq_getElem _ _ h1, List.getElem_map,
          List.getD_eq_getElem _ _ hh]
      exact List.perm_append_comm.trans (by rw [List.take_append_drop])
    · rw [List.getD_eq_default _ _ (by rw [List.length_map]; omega),
          List.getD_eq_default _ _ (by omega)]
  · intro i hi h hh
    rw [shift_kv_cache_right_getD cache nv i hB]
    have h1 : h < ((cache.getD i []).map
        (fun s => s.drop (nv.getD i 0) ++ s.take (nv.getD i 0))).length := by
      rw [List.length_map]; exact hh
    rw [List.getD_eq_getElem _ _ h1, List.getElem_map,
        List.getD_eq_getElem _ _ hh]
    have hs : ((cache.getD i [])[h].drop (nv.getD i 0)).length =
        seq - nv.getD i 0 := by
      have h3 := hseq i hi h hh
      rw [List.getD_eq_getElem _ _ hh] at h3
      rw [List.length_drop, h3]
    rw [← hs, List.drop_left]

/-- Witness for C6 at a one-row, one-head cache with sequence [1, 2, 3] and
valid length 2: the shifted row is a permutation and its last 2 columns are
the original first 2 columns. -/
theorem shift_kv_cache_right_is_aligning_perm_witness :
    (([[[(1 : ℤ), 2, 3]]] : List (List (List ℤ))).length = [2].length ∧
     (∀ i, i < ([[[(1 : ℤ), 2, 3]]] : List (List (List ℤ))).length →
        ∀ h, h < (([[[(1 : ℤ), 2, 3]]] : List (List (List ℤ))).getD i []).length →
          ((([[[(1 : ℤ), 2, 3]]] : List (List (List ℤ))).getD i []).getD h []).length = 3) ∧
     (∀ i, i < ([[[(1 : ℤ), 2, 3]]] : List (List (List ℤ))).length →
        [2].getD i 0 ≤ 3)) ∧
    (shift_kv_cache_right ([[[(1 : ℤ), 2, 3]]] : List (List (List ℤ))) [2]).length =
        ([[[(1 : ℤ), 2, 3]]] : List (List (List ℤ))).length ∧
    (∀ i, ((shift_kv_cache_right ([[[(1 : ℤ), 2, 3]]] : List (List (List ℤ))) [2]).getD i []).length =
      (([[[(1 : ℤ), 2, 3]]] : List (List (List ℤ))).getD i []).length) ∧
    (∀ i h, (((shift_kv_cache_right ([[[(1 : ℤ), 2, 3]]] : List (List (List ℤ))) [2]).getD i []).getD h []).Perm
      ((([[[(1 : ℤ), 2, 3]]] : List (List (List ℤ))).getD i []).getD h [])) ∧
    (∀ i, i < ([[[(1 : ℤ), 2, 3]]] : List (List (List ℤ))).length →
      ∀ h, h < (([[[(1 : ℤ), 2, 3]]] : List (List (List ℤ))).getD i []).length →
      (((shift_kv_cache_right ([[[(1 : ℤ), 2, 3]]] : List (List (List ℤ))) [2]).getD i []).getD h []).drop
          (3 - [2].getD i 0) =
        ((([[[(1 : ℤ), 2, 3]]] : List (List (List ℤ))).getD i []).getD h []).take ([2].getD i 0)) := by
  refine ⟨⟨by decide, by decide, by decide⟩, ?_⟩
  exact shift_kv_cache_right_is_aligning_perm [[[(1 : ℤ), 2, 3]]] [2] 3
    (by decide) (by decide) (by decide)

lemma append_rows_getD {α : Type} (old new : List (List (List α))) (i h : ℕ)
    (hB : new.length = old.length)
    (hH : ∀ j, (new.getD j []).length = (old.getD j []).length) :
    ((List.zipWith (fun oldRow newRow => List.zipWith (· ++ ·) oldRow newRow)
        old new).getD i []).getD h [] =
      (old.getD i []).getD h [] ++ (new.getD i []).getD h [] := by
  have h1 := getD_zipWith (fun (oldRow newRow : List (List α)) =>
      List.zipWith (· ++ ·) oldRow newRow) old new i [] [] hB.symm
  simp only [List.zipWith_nil_left] at h1
  rw [h1]
  have h2 := getD_zipWith (fun (a b : List α) => a ++ b)
      (old.getD i []) (new.getD i []) h [] [] (hH i).symm
  simp only [List.nil_append] at h2
  exact h2

lemma attention_update_cache_key_getD {α : Type} (c : LayerKV α)
    (nk nv : List (List (List α))) (i h : ℕ)
    (hB : nk.length = c.key.length)
    (hH : ∀ j, (nk.getD j []).length = (c.key.getD j []).length) :
    ((attention_update_cache c nk nv).key.getD i []).getD h [] =
      (c.key.getD i []).getD h [] ++ (nk.getD i []).getD h [] :=
  append_rows_getD c.key nk i h hB hH

lemma attention_update_cache_value_getD {α : Type} (c : LayerKV α)
    (nk nv : List (List (List α))) (i h : ℕ)
    (hBv : nv.length = c.value.length)
    (hHv : ∀ j, (nv.getD j []).length = (c.value.getD j []).length) :
    ((attention_update_cache c nk nv).value.getD i []).getD h [] =
      (c.value.getD i []).getD h [] ++ (nv.getD i []).getD h [] :=
  append_rows_getD c.value nv i h hBv hHv

lemma cachedLengthKV_update {α : Type} (c : LayerKV α)
    (nk nv : List (List (List α)))
    (hB : nk.length = c.key.length)
    (hH : ∀ j, (nk.getD j []).length = (c.key.getD j []).length) :
    cachedLengthKV (attention_update_cache c nk nv) =
      cachedLengthKV c + ((nk.getD 0 []).getD 0 []).length := by
  unfold cachedLengthKV
  rw [attention_update_cache_key_getD c nk nv 0 0 hB hH, List.length_append]

/-- Claim C8: an attention call that receives an existing cache entry
returns the old entry with the call's new per-head keys and values
concatenated at the end of the sequence axis, so cached_length grows by
exactly the number of new query tokens, nothing is evicted (the old entry is
a per-head prefix of the result), and cached_length never decreases. -/
theorem attention_forward_cache_append {α : Type} (c : LayerKV α)
    (nk nv : List (List (List α))) (q : ℕ)
    (hB : nk.length = c.key.length) (hBv : nv.length = c.value.length)
    (hH : ∀ j, (nk.getD j []).length = (c.key.getD j []).length)
    (hHv : ∀ j, (nv.getD j []).length = (c.value.getD j []).length)
    (hq : ((nk.getD 0 []).getD 0 []).length = q) :
    (∀ i h, ((attention_update_cache c nk nv).key.getD i []).getD h [] =
      (c.key.getD i []).getD h [] ++ (nk.getD i []).getD h []) ∧
    (∀ i h, ((attention_update_cache c nk nv).value.getD i []).getD h [] =
      (c.value.getD i []).getD h [] ++ (nv.getD i []).getD h []) ∧
    cachedLengthKV (attention_update_cache c nk nv) = cachedLengthKV c + q ∧
    cachedLengthKV c ≤ cachedLengthKV (attention_update_cache c nk nv) := by
  have h3 := cachedLengthKV_update c nk nv hB hH
  refine ⟨fun i h => attention_update_cache_key_getD c nk nv i h hB hH,
          fun i h => attention_update_cache_value_getD c nk nv i h hBv hHv,
          by rw [h3, hq], by rw [h3]; omega⟩

/-- Witness for C8 at a one-row, one-head cache of length 2 with one new
token per head. -/
theorem attention_forward_cache_append_witness :
    (([[[(5 : ℤ)]]] : List (List (List ℤ))).length =
        (LayerKV.key ⟨[[[(1 : ℤ), 2]]], [[[3, 4]]]⟩).length ∧
     ((([[[(5 : ℤ)]]] : List (List (List ℤ))).getD 0 []).getD 0 []).length = 1) ∧
    (∀ i h, ((attention_update_cache (⟨[[[(1 : ℤ), 2]]], [[[3, 4]]]⟩ : LayerKV ℤ)
        [[[5]]] [[[6]]]).key.getD i []).getD h [] =
      (((⟨[[[(1 : ℤ), 2]]], [[[3, 4]]]⟩ : LayerKV ℤ).key.getD i []).getD h []) ++
        ((([[[(5 : ℤ)]]] : List (List (List ℤ))).getD i []).getD h [])) ∧
    (∀ i h, ((attention_update_cache (⟨[[[(1 : ℤ), 2]]], [[[3, 4]]]⟩ : LayerKV ℤ)
        [[[5]]] [[[6]]]).value.getD i []).getD h [] =
      (((⟨[[[(1 : ℤ), 2]]], [[[3, 4]]]⟩ : LayerKV ℤ).value.getD i []).getD h []) ++
        ((([[[(6 : ℤ)]]] : List (List (List ℤ))).getD i []).getD h [])) ∧
    cachedLengthKV (attention_update_cache (⟨[[[(1 : ℤ), 2]]], [[[3, 4]]]⟩ : LayerKV ℤ)
        [[[5]]] [[[6]]]) =
      cachedLengthKV (⟨[[[(1 : ℤ), 2]]], [[[3, 4]]]⟩ : LayerKV ℤ) + 1 ∧
    cachedLengthKV (⟨[[[(1 : ℤ), 2]]], [[[3, 4]]]⟩ : LayerKV ℤ) ≤
      cachedLengthKV (attention_update_cache (⟨[[[(1 : ℤ), 2]]], [[[3, 4]]]⟩ : LayerKV ℤ)
        [[[5]]] [[[6]]]) :=
  ⟨⟨by decide, by decide⟩,
   attention_forward_cache_append (⟨[[[(1 : ℤ), 2]]], [[[3, 4]]]⟩ : LayerKV ℤ)
     [[[5]]] [[[6]]] 1 (by decide) (by decide)
     (fun j => by cases j <;> rfl) (fun j => by cases j <;> rfl) (by decide)⟩

/-- Claim C7: in prompt-tuning mode the learned soft prompt is prepended
exactly when the KV cache is absent or has cached length 0, and across one
generation run — cache starting at length 0 and each model call appending at
least one token per `attention_update_cache` — it is injected at the prime
call and at no later decode step: exactly once. -/
theorem prompt_injected_once {α : Type} (c : ℕ → LayerKV α)
    (k v : ℕ → List (List (List α))) (N : ℕ)
    (h0 : cachedLengthKV (c 0) = 0)
    (hupd : ∀ n, n < N → c (n + 1) = attention_update_cache (c n) (k n) (v n))
    (hB : ∀ n, n < N → (k n).length = (c n).key.length)
    (hH : ∀ n, n < N → ∀ j, ((k n).getD j []).length = ((c n).key.getD j []).length)
    (hq : ∀ n, n < N → 1 ≤ (((k n).getD 0 []).getD 0 []).length) :
    (∀ (kv : Option (List (LayerKV α))),
        prompt_prepended PeftMode.prompt kv = true ↔
          (kv = none ∨ cachedLengthKV ((kv.getD []).getD 0 ⟨[], []⟩) = 0)) ∧
    (∀ n, n ≤ N →
      prompt_prepended PeftMode.prompt (some [c n]) = decide (n = 0)) := by
  constructor
  · intro kv
    simp [prompt_prepended, Option.isNone_iff_eq_none]
  · intro n hn
    have hpos : ∀ m, m ≤ N → 1 ≤ m → 1 ≤ cachedLengthKV (c m) := by
      intro m hm h1
      obtain ⟨m', rfl⟩ : ∃ m', m = m' + 1 := ⟨m - 1, by omega⟩
      have hm' : m' < N := by omega
      rw [hupd m' hm', cachedLengthKV_update (c m') (k m') (v m')
        (hB m' hm') (hH m' hm')]
      have := hq m' hm'
      omega
    have hg : prompt_prepended PeftMode.prompt (some [c n]) =
        decide (cachedLengthKV (c n) = 0) := by
      simp [prompt_prepended]
    rw [hg]
    cases n with
    | zero => simp [h0]
    | succ m =>
      have hge := hpos (m + 1) hn (by omega)
      have hne : cachedLengthKV (c (m + 1)) ≠ 0 := by omega
      simp [hne]

/-- Witness for C7 on the concrete trace `c7cache` (empty cache, one
appended token per step, two steps): injected at the prime call only. -/
theorem prompt_injected_once_witness :
    cachedLengthKV (c7cache 0) = 0 ∧
    prompt_prepended PeftMode.prompt (some [c7cache 0]) = true ∧
    prompt_prepended PeftMode.prompt (some [c7cache 1]) = false ∧
    prompt_prepended PeftMode.prompt (some [c7cache 2]) = false := by
  have h := prompt_injected_once c7cache (fun _ => [[[0]]]) (fun _ => [[[0]]]) 2
    rfl (fun _ _ => rfl) (by decide)
    (fun n hn j => by interval_cases n <;> cases j <;> rfl)
    (by decide)
  refine ⟨rfl, ?_, ?_, ?_⟩
  · simpa using h.2 0 (by omega)
  · simpa using h.2 1 (by omega)
  · simpa using h.2 2 (by omega)

lemma length_cumsumAux (l : List ℤ) : ∀ (acc : ℤ),
    (cumsumAux acc l).length = l.length := by
  induction l with
  | nil => intro acc; rfl
  | cons x xs ih => intro acc; simp [cumsumAux, ih]

lemma length_create_rope_embed_ids (l : List ℤ) :
    (create_rope_embed_ids l).length = l.length := by
  simp [create_rope_embed_ids, cumsum, length_cumsumAux]

lemma cumsumAux_getD (l : List ℤ) : ∀ (acc : ℤ) (j : ℕ), j < l.length →
    (cumsumAux acc l).getD j 0 = acc + (l.take (j + 1)).sum := by
  induction l with
  | nil => intro acc j hj; simp at hj
  | cons x xs ih =>
    intro acc j hj
    cases j with
    | zero => simp [cumsumAux]
    | succ n =>
      simp only [cumsumAux, List.getD_cons_succ]
      rw [ih (acc + x) n (by simpa using hj)]
      rw [List.take_succ_cons, List.sum_cons]
      ring

lemma sum_indicator_eq_countP (l : List ℤ) :
    (l.map (fun t => if t ≠ 0 then (1 : ℤ) else 0)).sum =
      (l.countP (fun t => decide (t ≠ 0)) : ℤ) := by
  induction l with
  | nil => simp
  | cons x xs ih =>
    rw [List.map_cons, List.sum_cons, ih, List.countP_cons]
    by_cases hx : x = 0 <;> simp [hx] <;> push_cast <;> ring

lemma create_rope_embed_ids_getD (l : List ℤ) (j : ℕ) (hj : j < l.length) :
    (create_rope_embed_ids l).getD j 0 =
      if l.getD j 0 = 0 then 2047
      else ((l.take (j + 1)).countP (fun t => decide (t ≠ 0)) : ℤ) - 1 := by
  have hlen : j < (create_rope_embed_ids l).length := by
    rw [length_create_rope_embed_ids]; exact hj
  rw [List.getD_eq_getElem _ _ hlen, List.getD_eq_getElem _ _ hj]
  unfold create_rope_embed_ids
  rw [List.getElem_zipWith]
  have hmlen : j < ((cumsum (l.map (fun t => if t ≠ 0 then (1 : ℤ) else 0))).map
      (fun c => c - 1)).length := by
    simp [cumsum, length_cumsumAux, hj]
  rw [List.getElem_map]
  have hclen : j < (cumsum (l.map (fun t => if t ≠ 0 then (1 : ℤ) else 0))).length := by
    simp [cumsum, length_cumsumAux, hj]
  rw [← List.getD_eq_getElem _ 0 hclen]
  simp only [cumsum]
  rw [cumsumAux_getD _ 0 j (by simpa using hj), zero_add]
  rw [← List.map_take, sum_indicator_eq_countP]

/-- Claim C9 (amended): `create_rope_embed_ids` assigns every padding token
the sentinel position 2047 — the last index of the 2048-entry rotary table,
within it rather than beyond it — and for every input with fewer than 2048
non-pad tokens the sentinel strictly exceeds every real token's position
id. -/
theorem create_rope_embed_ids_pad_sentinel (l : List ℤ)
    (hcount : l.countP (fun t => decide (t ≠ 0)) < 2048) :
    (∀ j, j < l.length → l.getD j 0 = 0 →
      (create_rope_embed_ids l).getD j 0 = 2047) ∧
    (∀ j, j < l.length → l.getD j 0 ≠ 0 →
      (create_rope_embed_ids l).getD j 0 < 2047) ∧
    (2047 : ℤ) = (rotary_table_size : ℤ) - 1 := by
  refine ⟨?_, ?_, by rw [rotary_table_size]; norm_num⟩
  · intro j hj hpad
    rw [create_rope_embed_ids_getD l j hj, if_pos hpad]
  · intro j hj hreal
    rw [create_rope_embed_ids_getD l j hj, if_neg hreal]
    have hle : (l.take (j + 1)).countP (fun t => decide (t ≠ 0)) ≤
        l.countP (fun t => decide (t ≠ 0)) :=
      (List.take_sublist (j + 1) l).countP_le (fun t => decide (t ≠ 0))
    omega

/-- Witness for C9 on the input [5, 0, 7] (two non-pad tokens, one pad). -/
theorem create_rope_embed_ids_pad_sentinel_witness :
    ([(5 : ℤ), 0, 7].countP (fun t => decide (t ≠ 0)) < 2048) ∧
    ((∀ j, j < [(5 : ℤ), 0, 7].length → [(5 : ℤ), 0, 7].getD j 0 = 0 →
        (create_rope_embed_ids [(5 : ℤ), 0, 7]).getD j 0 = 2047) ∧
     (∀ j, j < [(5 : ℤ), 0, 7].length → [(5 : ℤ), 0, 7].getD j 0 ≠ 0 →
        (create_rope_embed_ids [(5 : ℤ), 0, 7]).getD j 0 < 2047) ∧
     (2047 : ℤ) = (rotary_table_size : ℤ) - 1) :=
  ⟨by decide, create_rope_embed_ids_pad_sentinel [(5 : ℤ), 0, 7] (by decide)⟩

/-- Counterexample to C9 as stated: on 2048 non-pad tokens followed by one
pad token, the pad's sentinel is 2047 but the 2048th real token also
receives rotary position id 2047, so the sentinel is not strictly greater
than every position the table serves to real tokens. -/
theorem create_rope_embed_ids_sentinel_collision :
    (create_rope_embed_ids c9input).getD 2048 0 = 2047 ∧
    c9input.getD 2047 0 ≠ 0 ∧
    (create_rope_embed_ids c9input).getD 2047 0 = 2047 ∧
    ¬ ((create_rope_embed_ids c9input).getD 2048 0 >
        (create_rope_embed_ids c9input).getD 2047 0) := by
  have hlen : c9input.length = 2049 := by
    rw [c9input, List.length_append, List.length_replicate]
    norm_num
  have htake : c9input.take 2048 = List.replicate 2048 (1 : ℤ) := by
    have h := List.take_left (List.replicate 2048 (1 : ℤ)) [0]
    rwa [List.length_replicate] at h
  have hcount : (c9input.take 2048).countP (fun t => decide (t ≠ 0)) = 2048 := by
    rw [htake]
    rw [List.countP_eq_length.mpr ?_, List.length_replicate]
    intro a ha
    rw [List.eq_of_mem_replicate ha]
    decide
  have hpad : c9input.getD 2048 0 = 0 := by
    rw [c9input,
      List.getD_append_right _ _ _ _ (by norm_num [List.length_replicate])]
    norm_num [List.length_replicate]
  have hreal : c9input.getD 2047 0 = 1 := by
    rw [c9input, List.getD_append _ _ _ _ (by rw [List.length_replicate]; omega)]
    rw [List.getD_eq_getElem _ _ (by rw [List.length_replicate]; omega)]
    rw [List.getElem_replicate]
  have h1 : (create_rope_embed_ids c9input).getD 2048 0 = 2047 := by
    rw [create_rope_embed_ids_getD c9input 2048 (by rw [hlen]; norm_num),
      if_pos hpad]
  have h2 : (create_rope_embed_ids c9input).getD 2047 0 = 2047 := by
    rw [create_rope_embed_ids_getD c9input 2047 (by rw [hlen]; norm_num),
      if_neg (by rw [hreal]; norm_num), hcount]
    norm_num
  exact ⟨h1, by rw [hreal]; norm_num, h2, by rw [h1, h2]; omega⟩

/-- Claim C1, evaluated at the failing input: at dim 1 the gate/up hidden
width is 256 = 2/3·4·1 rounded up to a multiple of 256, but on the input
x = 1 with gate(x) = 1, up(x) = 2 fed into channel 0, `MLP.forward`
(which computes `F.silu(gate_proj * up_proj)`) differs from the spec's
standard SwiGLU `down(silu(gate(x)) * up(x))`: silu(2) ≠ silu(1)·2. -/
theorem mlp_silu_applied_to_product :
    mlp_hidden_dim 1 = 256 ∧
    MLP.forward siluReal c1mlp (fun _ => 1) 0 ≠
      MLP.forward_spec siluReal c1mlp (fun _ => 1) 0 := by
  refine ⟨rfl, ?_⟩
  have hL : MLP.forward siluReal c1mlp (fun _ => 1) 0 =
      2 / (1 + Real.exp (-2)) := by
    unfold MLP.forward c1mlp siluReal
    simp only [show (PeftMode.nothing = PeftMode.bitfit) = False by simp,
      show (PeftMode.nothing = PeftMode.ia3) = False by simp, if_false]
    norm_num
  have hR : MLP.forward_spec siluReal c1mlp (fun _ => 1) 0 =
      1 / (1 + Real.exp (-1)) * 2 := by
    unfold MLP.forward_spec c1mlp siluReal
    norm_num
  rw [hL, hR]
  intro heq
  have e1 : (0 : ℝ) < 1 + Real.exp (-2) := by positivity
  have e2 : (0 : ℝ) < 1 + Real.exp (-1) := by positivity
  field_simp at heq

/-- Claim C10: in BitFit mode `MLP.forward` adds the gate-projection bias to
both the gate and up projection outputs and never reads
`peft_up_proj_bias`: two MLPs identical except for the up-projection bias
produce identical outputs on every input. -/
theorem mlp_bitfit_up_bias_unused {α : Type} [Ring α] {dim hidden : ℕ}
    (silu : α → α) (p q : MLP α dim hidden)
    (hpm : p.peft_mode = PeftMode.bitfit) (hqm : q.peft_mode = PeftMode.bitfit)
    (hg : p.gate_proj = q.gate_proj) (hu : p.up_proj = q.up_proj)
    (hd : p.down_proj = q.down_proj)
    (hgb : p.peft_gate_proj_bias = q.peft_gate_proj_bias)
    (hdb : p.peft_down_proj_bias = q.peft_down_proj_bias)
    (hia : p.peft_ia3 = q.peft_ia3) :
    (∀ x, MLP.forward silu p x = MLP.forward silu q x) ∧
    (∀ x i, MLP.forward silu p x i =
      p.down_proj (fun j => silu ((p.gate_proj x j + p.peft_gate_proj_bias j) *
        (p.up_proj x j + p.peft_gate_proj_bias j))) i +
        p.peft_down_proj_bias i) := by
  have hform : ∀ (r : MLP α dim hidden), r.peft_mode = PeftMode.bitfit →
      ∀ x i, MLP.forward silu r x i =
        r.down_proj (fun j => silu ((r.gate_proj x j + r.peft_gate_proj_bias j) *
          (r.up_proj x j + r.peft_gate_proj_bias j))) i +
          r.peft_down_proj_bias i := by
    intro r hr x i
    unfold MLP.forward
    rw [hr]
    simp
  constructor
  · intro x
    funext i
    rw [hform p hpm x i, hform q hqm x i, hg, hu, hd, hgb, hdb]
  · intro x i
    exact hform p hpm x i

/-- Witness for C10 on the concrete pair `c10mlp 5` and `c10mlp 7` (equal in
every declared parameter except the up-projection bias) with the activation
t ↦ t·t over ℚ. -/
theorem mlp_bitfit_up_bias_unused_witness :
    ((c10mlp 5).peft_mode = PeftMode.bitfit ∧
     (c10mlp 7).peft_mode = PeftMode.bitfit ∧
     (c10mlp 5).gate_proj = (c10mlp 7).gate_proj ∧
     (c10mlp 5).peft_up_proj_bias ≠ (c10mlp 7).peft_up_proj_bias) ∧
    ((∀ x, MLP.forward (fun t => t * t) (c10mlp 5) x =
        MLP.forward (fun t => t * t) (c10mlp 7) x) ∧
     (∀ x i, MLP.forward (fun t => t * t) (c10mlp 5) x i =
        (c10mlp 5).down_proj (fun j =>
          (fun t => t * t) (((c10mlp 5).gate_proj x j + (c10mlp 5).peft_gate_proj_bias j) *
            ((c10mlp 5).up_proj x j + (c10mlp 5).peft_gate_proj_bias j))) i +
          (c10mlp 5).peft_down_proj_bias i)) :=
  ⟨⟨rfl, rfl, rfl, fun h => by
      have := congrFun h 0
      simp [c10mlp] at this⟩,
   mlp_bitfit_up_bias_unused (fun t => t * t) (c10mlp 5) (c10mlp 7)
     rfl rfl rfl rfl rfl rfl rfl rfl⟩

/-- Claim C3, evaluated at the failing input: with batch_size = 2 (one
layer, one head, per-row sequences [0,1,2] and [3,4,5], valid counts
[1, 2]) the post-prime shift block applies `shift_kv_cache_right` twice to
each layer's key and value tensors — once per iteration of the vestigial
`for i in range(batch_size)` loop — so the resulting cache is the
twice-rotated [[2,0,1]],[[4,5,3]] and differs from the once-shifted cache
[[1,2,0]],[[5,3,4]] that the claim describes. -/
theorem generate_shift_block_applies_batch_size_times :
    generate_shift_block
        [(⟨[[[(0 : ℤ), 1, 2]], [[3, 4, 5]]], [[[(0 : ℤ), 1, 2]], [[3, 4, 5]]]⟩ :
          LayerKV ℤ)] 2 [1, 2] =
      [(⟨[[[(2 : ℤ), 0, 1]], [[4, 5, 3]]], [[[(2 : ℤ), 0, 1]], [[4, 5, 3]]]⟩ :
        LayerKV ℤ)] ∧
    [(⟨[[[(2 : ℤ), 0, 1]], [[4, 5, 3]]], [[[(2 : ℤ), 0, 1]], [[4, 5, 3]]]⟩ :
        LayerKV ℤ)] ≠
      [(⟨shift_kv_cache_right [[[(0 : ℤ), 1, 2]], [[3, 4, 5]]] [1, 2],
         shift_kv_cache_right [[[(0 : ℤ), 1, 2]], [[3, 4, 5]]] [1, 2]⟩ :
        LayerKV ℤ)] := by
  decide

/-- Claim C4 (amended): in a decode step with batch size 1, when the newly
generated token id is non-zero (i.e. not the pad id hardcoded in
`create_rope_embed_ids`), the rotary position id assigned to the single new
query token equals the row's num_valid_tokens counter after its per-step
increment. -/
theorem decode_rope_id_eq_num_valid (tok : ℤ) (nv : ℕ) (h : tok ≠ 0) :
    decode_rope_embed_ids [[tok]] [nv] = [[(nv : ℤ)]] := by
  unfold decode_rope_embed_ids create_rope_embed_ids cumsum cumsumAux
  simp [h]

/-- Witness for C4 at token 3 and counter 5. -/
theorem decode_rope_id_eq_num_valid_witness :
    ((3 : ℤ) ≠ 0) ∧ decode_rope_embed_ids [[3]] [5] = [[(5 : ℤ)]] :=
  ⟨by decide, decode_rope_id_eq_num_valid 3 5 (by decide)⟩

/-- Counterexample to C4 as stated: when the decode step's new token id is 0
(the pad id hardcoded in `create_rope_embed_ids`), the assigned rotary
position id is 2047 + num_valid_tokens (= 2052 at counter 5), not
num_valid_tokens; and with batch size 2 the [batch, 1] + [batch] torch
broadcast of line 240 hands every row a [batch]-wide row of position ids
mixing both rows' counters ([[5, 6], [5, 6]]), not each row its own single
counter. -/
theorem decode_rope_id_pad_token_counterexample :
    (decode_rope_embed_ids [[0]] [5] = [[2052]] ∧
     decode_rope_embed_ids [[0]] [5] ≠ [[(5 : ℤ)]]) ∧
    (decode_rope_embed_ids [[(3 : ℤ)], [4]] [5, 6] = [[5, 6], [5, 6]] ∧
     decode_rope_embed_ids [[(3 : ℤ)], [4]] [5, 6] ≠ [[(5 : ℤ)], [(6 : ℤ)]]) := by
  decide

lemma generate_decode_step_generated {α : Type} (oracle : GenOracle α)
    (dmin : ℚ) (B B' : ℕ) (st : GenLoopState α)
    (horacle : ∀ a b c d, ((oracle a b c d).1).length = B') :
    ∃ gen, (generate_decode_step oracle dmin B st).generated =
        st.generated ++ [gen] ∧
      gen.length = B' ∧ ∀ r ∈ gen, r.length = 1 := by
  refine ⟨_, rfl, ?_, ?_⟩
  · rw [List.length_map, horacle]
  · intro r hr
    obtain ⟨a, _, rfl⟩ := List.mem_map.mp hr
    rfl

lemma generate_decode_fold_generated {α : Type} (oracle : GenOracle α)
    (dmin : ℚ) (B B' : ℕ)
    (horacle : ∀ a b c d, ((oracle a b c d).1).length = B') :
    ∀ (n : ℕ) (st : GenLoopState α),
    ∃ extra, ((List.range n).foldl
        (fun s _ => generate_decode_step oracle dmin B s) st).generated =
        st.generated ++ extra ∧
      extra.length = n ∧
      ∀ gen ∈ extra, gen.length = B' ∧ ∀ r ∈ gen, r.length = 1 := by
  intro n
  induction n with
  | zero =>
    intro st
    exact ⟨[], by simp, rfl, by simp⟩
  | succ n ih =>
    intro st
    obtain ⟨extra, he, hl, hp⟩ := ih st
    obtain ⟨gen, hg, hgl, hgr⟩ := generate_decode_step_generated oracle dmin B B'
      ((List.range n).foldl (fun s _ => generate_decode_step oracle dmin B s) st)
      horacle
    refine ⟨extra ++ [gen], ?_, ?_, ?_⟩
    · rw [List.range_succ, List.foldl_append, List.foldl_cons, List.foldl_nil,
        hg, he, List.append_assoc]
    · simp [hl]
    · intro g hgmem
      rcases List.mem_append.mp hgmem with h1 | h2
      · exact hp g h1
      · rw [List.mem_singleton.mp h2]
        exact ⟨hgl, hgr⟩

lemma generate_prime_generated {α : Type} (oracle : GenOracle α)
    (pc : PeftConfig) (pad : ℤ) (dmin : ℚ) (sp : ℕ → List (LayerKV α))
    (nL nH : ℕ) (input_ids : List (List ℤ)) :
    ∃ gen, (generate_prime oracle pc pad dmin sp nL nH input_ids).generated =
        [input_ids, gen] ∧
      gen.length = input_ids.length ∧ ∀ r ∈ gen, r.length = 1 := by
  refine ⟨_, rfl, ?_, ?_⟩
  · rw [List.length_map, List.length_range]
  · intro r hr
    obtain ⟨a, _, rfl⟩ := List.mem_map.mp hr
    rfl

lemma cat_dim1_length (chunks : List (List (List ℤ))) (B : ℕ) :
    (cat_dim1 chunks B).length = B := by
  rw [cat_dim1, List.length_map, List.length_range]

lemma cat_dim1_mem (chunks : List (List (List ℤ))) (B : ℕ) (r : List ℤ)
    (hr : r ∈ cat_dim1 chunks B) :
    ∃ i, i < B ∧ r = (chunks.map (fun c => c.getD i [])).flatten := by
  unfold cat_dim1 at hr
  obtain ⟨i, hi, rfl⟩ := List.mem_map.mp hr
  exact ⟨i, List.mem_range.mp hi, rfl⟩

/-- Claim C2 (amended): for a prompt of B rows of length L and every
generation_length g ≥ 1, `generate` returns B rows of exactly L + g columns
— the prompt followed by exactly g generated tokens (one from the prime
pass, g − 1 from the decode loop); generation_length counts generated
tokens only, the prompt is returned in addition. -/
theorem generate_token_count {α : Type} (oracle : GenOracle α)
    (pc : PeftConfig) (pad : ℤ) (dmin : ℚ) (sp : ℕ → List (LayerKV α))
    (nL nH : ℕ) (input_ids : List (List ℤ)) (g L B : ℕ)
    (hB : input_ids.length = B)
    (hrows : ∀ r ∈ input_ids, r.length = L)
    (hg : 1 ≤ g)
    (horacle : ∀ a b c d, ((oracle a b c d).1).length = B) :
    (generate oracle pc pad dmin sp nL nH input_ids g).length = B ∧
    ∀ r ∈ generate oracle pc pad dmin sp nL nH input_ids g,
      r.length = L + g := by
  subst hB
  have hrepr : generate oracle pc pad dmin sp nL nH input_ids g =
      cat_dim1 (((List.range (g - 1)).foldl
        (fun s _ => generate_decode_step oracle dmin input_ids.length s)
        (generate_prime oracle pc pad dmin sp nL nH input_ids)).generated)
        input_ids.length := rfl
  constructor
  · rw [hrepr, cat_dim1_length]
  · intro r hr
    rw [hrepr] at hr
    obtain ⟨i, hi, rfl⟩ := cat_dim1_mem _ _ _ hr
    obtain ⟨gen, hpg, hpgl, hpgr⟩ :=
      generate_prime_generated oracle pc pad dmin sp nL nH input_ids
    obtain ⟨extra, he, hel, hep⟩ := generate_decode_fold_generated oracle dmin
      input_ids.length input_ids.length horacle (g - 1)
      (generate_prime oracle pc pad dmin sp nL nH input_ids)
    rw [he, hpg]
    have hflat : ∀ (cs : List (List (List ℤ))),
        ((cs.map (fun c => c.getD i [])).flatten).length =
          (cs.map (fun c => (c.getD i []).length)).sum := by
      intro cs
      rw [List.length_flatten, List.map_map]
      rfl
    rw [hflat, List.map_append, List.sum_append]
    have h1 : (input_ids.getD i []).length = L := by
      rw [List.getD_eq_getElem _ _ hi]
      exact hrows _ (List.getElem_mem hi)
    have h2 : (gen.getD i []).length = 1 := by
      have hig : i < gen.length := by rw [hpgl]; exact hi
      rw [List.getD_eq_getElem _ _ hig]
      exact hpgr _ (List.getElem_mem hig)
    have h3 : (extra.map (fun c => (c.getD i []).length)).sum = g - 1 := by
      have hall : ∀ x ∈ extra.map (fun c => (c.getD i []).length), x = 1 := by
        intro x hx
        obtain ⟨c, hc, rfl⟩ := List.mem_map.mp hx
        have hic : i < c.length := by rw [(hep c hc).1]; exact hi
        rw [List.getD_eq_getElem _ _ hic]
        exact (hep c hc).2 _ (List.getElem_mem hic)
      rw [List.eq_replicate_of_mem hall, List.sum_replicate, smul_eq_mul,
        mul_one, List.length_map, hel]
    rw [h3]
    simp only [List.map_cons, List.map_nil, List.sum_cons, List.sum_nil, h1, h2]
    omega

/-- Witness for C2 (amended) on the one-row prompt [[7]] with
generation_length 3 and a constant shape-correct oracle. -/
theorem generate_token_count_witness :
    (([[(7 : ℤ)]] : List (List ℤ)).length = 1 ∧ (1 : ℕ) ≤ 3) ∧
    (generate constOracle1 cfgNone 0 (-65504) (fun _ => []) 1 1 [[7]] 3).length = 1 ∧
    ∀ r ∈ generate constOracle1 cfgNone 0 (-65504) (fun _ => []) 1 1 [[7]] 3,
      r.length = 1 + 3 :=
  ⟨⟨rfl, by omega⟩,
   generate_token_count constOracle1 cfgNone 0 (-65504) (fun _ => []) 1 1
     [[7]] 3 1 1 rfl
     (fun r hr => by rw [List.mem_singleton.mp hr]; rfl)
     (by omega) (fun _ _ _ _ => rfl)⟩

/-- Counterexample to C2 as stated: on the prompt [[1, 2]] (L = 2) with
generation_length 2, `generate` returns a row of 4 = 2 + 2 columns, not 2
columns. -/
theorem generate_token_count_counterexample :
    ((generate echoOracle cfgNone 0 (-65504) (fun _ => []) 1 1
        [[1, 2]] 2).getD 0 []).length = 2 + 2 ∧
    ((generate echoOracle cfgNone 0 (-65504) (fun _ => []) 1 1
        [[1, 2]] 2).getD 0 []).length ≠ 2 := by
  decide

end PeftyLlama
